import Mathlib

/-!
Verification of the data pipeline of the Zurich burglary dashboard
(`ivi_sahan_final.py`).

The dashboard merges a burglary-incidents table with a population table,
computes a per-1000-inhabitants rate, and on every interaction filters the
merged table by a year range and an optional district selection, aggregates
per district, and derives summary values (safest / most vulnerable district,
total burglaries, percentage of the all-years total, a top-12 ranking and an
average reference line).

This file gives a shallow embedding of that pipeline: pandas dataframes
become lists of records, dataframe operations become list operations, and
numpy floats become rationals.  Division by zero, which in numpy produces a
NaN (with a warning) rather than raising, is modelled by `Option`: `none`
stands for the NaN result.
-/

namespace Ivi

/-- One row of the incidents CSV (`1_Zurich_Einbrueche_2009-2023.csv`)
after the `Year` rename: columns `Stadtkreis_Name`, `Year`,
`Straftaten_total`. -/
structure CsvRow where
  stadtkreis : String
  year : Int
  straftaten : Int
deriving DecidableEq, Repr

/-- One row of the population CSV (`Bevölkerungsanzahl.csv`) after the
`Year` rename, restricted to the three columns the merge uses:
`KreisLang`, `Year`, `AnzBestWir`. -/
structure PopRow where
  kreisLang : String
  year : Int
  anzBestWir : ℚ
deriving DecidableEq, Repr

/-- One row of `merged_data` after the merge, the `dropna` on `AnzBestWir`
and the rate computation: `district` is `Stadtkreis_Name`, `incidents` is
`Straftaten_total`, `population` is `AnzBestWir`, `rate` is
`Burglary_rate_per_1000`. -/
structure Record where
  district : String
  year : Int
  incidents : Int
  population : ℚ
  rate : ℚ
deriving DecidableEq, Repr

/-- The left join `pd.merge(csv_data, population_data[...], left_on =
[Stadtkreis_Name, Year], right_on = [KreisLang, Year], how = "left")`:
every incidents row is paired with each matching population row, and with
`none` (a NaN `AnzBestWir` cell) when no population row matches. -/
def mergeLeft (csv : List CsvRow) (pop : List PopRow) : List (CsvRow × Option PopRow) :=
  csv.flatMap fun r =>
    let ms := pop.filter fun p => decide (p.kreisLang = r.stadtkreis ∧ p.year = r.year)
    if ms.isEmpty then [(r, none)] else ms.map fun p => (r, some p)

/-- `merged_data`: the left join, then `dropna(subset = [AnzBestWir])`
(rows whose population cell is the NaN of a failed join are removed), then
`Burglary_rate_per_1000 = Straftaten_total / AnzBestWir * 1000`. -/
def merged_data (csv : List CsvRow) (pop : List PopRow) : List Record :=
  (mergeLeft csv pop).filterMap fun rp =>
    match rp.2 with
    | none => none
    | some p => some ⟨rp.1.stadtkreis, rp.1.year, rp.1.straftaten,
        p.anzBestWir, (rp.1.straftaten : ℚ) / p.anzBestWir * 1000⟩

/-- `total_burglaries_all_years = merged_data[Straftaten_total].sum()`. -/
def total_burglaries_all_years (data : List Record) : Int :=
  (data.map (·.incidents)).sum

/-- The filter step of `update_dashboard`: keep the rows whose `Year` lies
in the selected range, and when the selected-district list is non-empty
keep only rows whose `Stadtkreis_Name` is in it.  (The source's second
`dropna` on `AnzBestWir` is a no-op here: every `Record` already has a
defined population.) -/
def filtered_data (data : List Record) (minY maxY : Int) (sel : List String) : List Record :=
  let byYear := data.filter fun r => decide (minY ≤ r.year) && decide (r.year ≤ maxY)
  if sel.isEmpty then byYear
  else byYear.filter fun r => sel.contains r.district

/-- The distinct district names of a record list, in first-occurrence
order (pandas `unique`). -/
def districtsOf (data : List Record) : List String :=
  (data.map (·.district)).dedup

/-- The group iteration order of `groupby(Stadtkreis_Name)`: pandas sorts
the group keys ascending (`sort = True` is the default), so the groups are
visited in ascending district-name order. -/
def groupOrder (data : List Record) : List String :=
  List.insertionSort (fun a b => a ≤ b) (districtsOf data)

/-- The metric selected by the two toggle buttons:
`Burglary_rate_per_1000` or `Straftaten_total`. -/
inductive Metric where
  | rate
  | total
deriving DecidableEq, Repr

/-- The selected metric's column of a merged-data row. -/
def Metric.recCol : Metric → Record → ℚ
  | .rate, r => r.rate
  | .total, r => (r.incidents : ℚ)

/-- The rows of one `groupby(Stadtkreis_Name)` group. -/
def groupRows (data : List Record) (d : String) : List Record :=
  data.filter fun r => decide (r.district = d)

/-- `groupby(Stadtkreis_Name)[metric].mean()` for one group: the mean of
the selected metric's column over the rows of district `d`. -/
def groupMean (m : Metric) (data : List Record) (d : String) : ℚ :=
  ((groupRows data d).map (m.recCol)).sum / ((groupRows data d).length : ℚ)

/-- The fold behind `Series.idxmin`: scan the labels, keeping the current
best and replacing it only on a strictly smaller value, so the first label
attaining the minimum wins. -/
def pickMin (f : String → ℚ) (d : String) (ds : List String) : String :=
  ds.foldl (fun best x => if f x < f best then x else best) d

/-- The fold behind `Series.idxmax`: first label attaining the maximum. -/
def pickMax (f : String → ℚ) (d : String) (ds : List String) : String :=
  ds.foldl (fun best x => if f best < f x then x else best) d

/-- `Series.idxmin` on the group-mean series (labels in group order). -/
def idxmin (f : String → ℚ) : List String → Option String
  | [] => none
  | d :: ds => some (pickMin f d ds)

/-- `Series.idxmax` on the group-mean series (labels in group order). -/
def idxmax (f : String → ℚ) : List String → Option String
  | [] => none
  | d :: ds => some (pickMax f d ds)

/-- `safest_stadtkreis`: `"N/A"` when the filtered data is empty, else
`groupby(Stadtkreis_Name)[metric].mean().idxmin()`. -/
def safest_stadtkreis (m : Metric) (subset : List Record) : String :=
  if subset.isEmpty then "N/A"
  else (idxmin (groupMean m subset) (groupOrder subset)).getD "N/A"

/-- `dangerous_stadtkreis`: `"N/A"` when the filtered data is empty, else
`groupby(Stadtkreis_Name)[metric].mean().idxmax()`. -/
def dangerous_stadtkreis (m : Metric) (subset : List Record) : String :=
  if subset.isEmpty then "N/A"
  else (idxmax (groupMean m subset) (groupOrder subset)).getD "N/A"

/-- One row of `filtered_data_agg`: per district, the sum of
`Straftaten_total` and the mean of `Burglary_rate_per_1000`. -/
structure AggRow where
  district : String
  sumIncidents : Int
  meanRate : ℚ
deriving DecidableEq, Repr

/-- `filtered_data_agg`: `groupby(Stadtkreis_Name).agg({Straftaten_total:
sum, Burglary_rate_per_1000: mean}).reset_index()` — one row per district,
in the sorted group order.  (Both branches of the source's `if` on the
metric compute the same aggregate.) -/
def filtered_data_agg (subset : List Record) : List AggRow :=
  (groupOrder subset).map fun d =>
    ⟨d, ((groupRows subset d).map (·.incidents)).sum,
      ((groupRows subset d).map (·.rate)).sum / ((groupRows subset d).length : ℚ)⟩

/-- The selected metric's column of an aggregate row. -/
def Metric.aggCol : Metric → AggRow → ℚ
  | .rate, a => a.meanRate
  | .total, a => (a.sumIncidents : ℚ)

/-- `top12_data = filtered_data_agg.sort_values(by = metric, ascending =
False).head(12)`. -/
def top12_data (m : Metric) (agg : List AggRow) : List AggRow :=
  (List.insertionSort (fun a b => m.aggCol b ≤ m.aggCol a) agg).take 12

/-- The unweighted arithmetic mean of a list of values, as the spec words
it ("arithmetic mean of the selected metric column"). -/
def arithMean (xs : List ℚ) : ℚ :=
  xs.sum / (xs.length : ℚ)

/-- `avg_value`: `filtered_data_agg[metric].mean()` when the aggregation
is non-empty and has more than one row, else `None` (no reference line is
drawn: `add_hline` runs only when `avg_value is not None`). -/
def avg_value (m : Metric) (agg : List AggRow) : Option ℚ :=
  if ¬agg.isEmpty ∧ 1 < agg.length then
    some ((agg.map (m.aggCol)).sum / (agg.length : ℚ))
  else none

/-- `total_burglaries = filtered_data[Straftaten_total].sum()`. -/
def total_burglaries (subset : List Record) : Int :=
  (subset.map (·.incidents)).sum

/-- numpy scalar division: the quotient, except that a zero divisor
produces NaN/inf (a `RuntimeWarning`, not an exception), modelled as
`none`. -/
def npDiv (a b : ℚ) : Option ℚ :=
  if b = 0 then none else some (a / b)

/-- `percentage_of_total_burglaries = (total_burglaries /
total_burglaries_all_years) * 100`, with numpy division semantics: there
is no zero guard in the source, so a zero all-years total gives NaN. -/
def percentage_of_total_burglaries (subset full : List Record) : Option ℚ :=
  (npDiv ((total_burglaries subset : ℚ)) ((total_burglaries_all_years full : ℚ))).map
    (· * 100)

/-- The district-button branch of `update_selected_districts`: clicking
district `d` removes it from the selection when present (list
comprehension keeping the others) and appends it when absent. -/
def update_selected_districts (sel : List String) (d : String) : List String :=
  if d ∈ sel then sel.filter fun x => decide (x ≠ d)
  else sel ++ [d]

/-! Concrete example data used by counterexamples and witnesses. -/

/-- A one-row incidents table. -/
def csvEx : List CsvRow := [⟨"Kreis 1", 2020, 7⟩]

/-- A matching population table with a zero resident count. -/
def popZero : List PopRow := [⟨"Kreis 1", 2020, 0⟩]

/-- A matching population table with a positive resident count. -/
def popPos : List PopRow := [⟨"Kreis 1", 2020, 100⟩]

/-- A dataset whose single record has zero incidents, so the all-years
total is zero. -/
def dsZero : List Record := [⟨"Kreis 1", 2020, 0, 100, 0⟩]

/-- The spec's two-district scenario: "A" with 10 incidents and "B" with
5, both with population 1000 in year 2020, so the rates are 10 and 5. -/
def dsAB : List Record :=
  [⟨"A", 2020, 10, 1000, 10⟩, ⟨"B", 2020, 5, 1000, 5⟩]

/-! Helper lemmas. -/

/-- A record of the merged table always comes from a `some` pairing of the
left join, whose population row matched the record's keys. -/
theorem mem_mergeLeft_some {csv : List CsvRow} {pop : List PopRow}
    {c : CsvRow} {p : PopRow} (h : (c, some p) ∈ mergeLeft csv pop) :
    p ∈ pop ∧ p.kreisLang = c.stadtkreis ∧ p.year = c.year := by
  simp only [mergeLeft, List.mem_flatMap] at h
  obtain ⟨c', _, hmem⟩ := h
  by_cases hfil : (pop.filter fun q =>
      decide (q.kreisLang = c'.stadtkreis ∧ q.year = c'.year)).isEmpty
  · rw [if_pos hfil] at hmem
    simp at hmem
  · rw [if_neg hfil] at hmem
    obtain ⟨a, ha, heq⟩ := List.mem_map.mp hmem
    have hc : c' = c := congrArg Prod.fst heq
    have ha' : a = p := Option.some.inj (congrArg Prod.snd heq)
    subst hc
    subst ha'
    have := List.mem_filter.mp ha
    exact ⟨this.1, by simpa using this.2⟩

/-- Unfolding of `merged_data` membership: every merged record is a
matched (csv row, population row) pair. -/
theorem mem_merged_data {csv : List CsvRow} {pop : List PopRow} {r : Record}
    (h : r ∈ merged_data csv pop) :
    ∃ c : CsvRow, ∃ p : PopRow, (c, some p) ∈ mergeLeft csv pop ∧
      r = ⟨c.stadtkreis, c.year, c.straftaten, p.anzBestWir,
        (c.straftaten : ℚ) / p.anzBestWir * 1000⟩ := by
  simp only [merged_data, List.mem_filterMap] at h
  obtain ⟨⟨c, op⟩, hmem, hf⟩ := h
  cases op with
  | none => simp at hf
  | some p => exact ⟨c, p, hmem, by simpa using hf.symm⟩

end Ivi

namespace Ivi

/-- C1: the source computes `(total_burglaries /
total_burglaries_all_years) * 100` with no guard, so on a degenerate
dataset with a zero all-years total the percentage is the NaN of a
zero division (`none`), not the `0` the spec requires. -/
theorem c1_division_unguarded :
    total_burglaries_all_years [] = 0 ∧
    percentage_of_total_burglaries (filtered_data [] 2009 2023 []) [] = none ∧
    percentage_of_total_burglaries (filtered_data [] 2009 2023 []) [] ≠ some 0 := by
  decide

/-- C2 (counterexample): a population row whose resident count is `0` is
not dropped by `dropna`, so a merged record with a non-positive population
survives the merge. -/
theorem c2_counterexample :
    ¬ ∀ r ∈ merged_data csvEx popZero, 0 < r.population := by
  decide

/-- C2 (amended): every record surviving the merge has a population taken
from a matching row of the population table (rows with no matching
population row are excluded), and it is strictly positive provided every
resident count in the population table is strictly positive. -/
theorem c2_merge_population (csv : List CsvRow) (pop : List PopRow)
    (hpos : ∀ p ∈ pop, 0 < p.anzBestWir) :
    ∀ r ∈ merged_data csv pop, 0 < r.population ∧
      ∃ p ∈ pop, p.kreisLang = r.district ∧ p.year = r.year ∧
        r.population = p.anzBestWir := by
  intro r hr
  obtain ⟨c, p, hc, hr⟩ := mem_merged_data hr
  obtain ⟨hp, hk, hy⟩ := mem_mergeLeft_some hc
  subst hr
  exact ⟨hpos p hp, p, hp, hk, hy, rfl⟩

/-- Witness for C2: on the one-row tables with population 100, the merge
invariant holds. -/
theorem c2_witness :
    (∀ p ∈ popPos, 0 < p.anzBestWir) ∧
    (∀ r ∈ merged_data csvEx popPos, 0 < r.population ∧
      ∃ p ∈ popPos, p.kreisLang = r.district ∧ p.year = r.year ∧
        r.population = p.anzBestWir) :=
  ⟨by decide, c2_merge_population csvEx popPos (by decide)⟩

/-- C3: the filter step keeps exactly the records whose year lies in the
selected range and whose district is selected (an empty selection
filtering nothing). -/
theorem c3_filter_inclusion (data : List Record) (minY maxY : Int)
    (sel : List String) (r : Record) :
    r ∈ filtered_data data minY maxY sel ↔
      r ∈ data ∧ minY ≤ r.year ∧ r.year ≤ maxY ∧
        (sel = [] ∨ r.district ∈ sel) := by
  unfold filtered_data
  by_cases h : sel.isEmpty
  · have h' : sel = [] := List.isEmpty_iff.mp h
    subst h'
    simp [List.mem_filter, and_assoc]
  · have h' : sel ≠ [] := fun he => h (by simp [he])
    simp [h, List.mem_filter, h']
    tauto

/-- C4: filtering with the list of all districts present in the dataset
gives exactly the same rows as filtering with the empty selection. -/
theorem c4_empty_selection_is_all (data : List Record) (minY maxY : Int) :
    filtered_data data minY maxY (districtsOf data) =
      filtered_data data minY maxY [] := by
  unfold filtered_data
  by_cases h : (districtsOf data).isEmpty
  · simp [h]
  · simp only [h, Bool.false_eq_true, if_false, List.isEmpty_nil, if_true]
    apply List.filter_eq_self.mpr
    intro r hr
    have hd : r ∈ data := (List.mem_filter.mp hr).1
    have : r.district ∈ districtsOf data := by
      unfold districtsOf
      exact List.mem_dedup.mpr (List.mem_map.mpr ⟨r, hd, rfl⟩)
    simpa using this

/-- C5: on an empty filtered subset both extreme districts resolve to the
sentinel `"N/A"`, the aggregation and top-12 ranking are empty, and the
average line is absent — every query output is defined, no arithmetic on
the empty group is attempted. -/
theorem c5_empty_subset_sentinels (m : Metric) (subset : List Record)
    (h : subset = []) :
    safest_stadtkreis m subset = "N/A" ∧
    dangerous_stadtkreis m subset = "N/A" ∧
    filtered_data_agg subset = [] ∧
    top12_data m (filtered_data_agg subset) = [] ∧
    avg_value m (filtered_data_agg subset) = none := by
  subst h
  refine ⟨rfl, rfl, rfl, rfl, rfl⟩

/-- Witness for C5 at the empty subset and the rate metric. -/
theorem c5_witness :
    safest_stadtkreis Metric.rate [] = "N/A" ∧
    dangerous_stadtkreis Metric.rate [] = "N/A" ∧
    filtered_data_agg [] = [] ∧
    top12_data Metric.rate (filtered_data_agg []) = [] ∧
    avg_value Metric.rate (filtered_data_agg []) = none :=
  c5_empty_subset_sentinels Metric.rate [] rfl

/-- C7: the top-N ranking takes the first 12 rows of the aggregation
sorted descending by the selected metric: it has `min 12 n` entries for
`n` district aggregates (so never more than 12), is pairwise descending
in the metric, and consists of rows of the aggregation. -/
theorem c7_top12_ranking (m : Metric) (subset : List Record) :
    (top12_data m (filtered_data_agg subset)).length =
      min 12 (filtered_data_agg subset).length ∧
    (top12_data m (filtered_data_agg subset)).length ≤ 12 ∧
    List.Sorted (fun a b => m.aggCol b ≤ m.aggCol a)
      (top12_data m (filtered_data_agg subset)) ∧
    ∀ a ∈ top12_data m (filtered_data_agg subset), a ∈ filtered_data_agg subset := by
  haveI ht : IsTotal AggRow (fun a b => m.aggCol b ≤ m.aggCol a) :=
    ⟨fun a b => le_total _ _⟩
  haveI htr : IsTrans AggRow (fun a b => m.aggCol b ≤ m.aggCol a) :=
    ⟨fun _ _ _ h1 h2 => le_trans h2 h1⟩
  refine ⟨?_, ?_, ?_, ?_⟩
  · simp [top12_data, List.length_take, List.length_insertionSort]
  · simp [top12_data, List.length_take]
  · exact List.Pairwise.sublist (List.take_sublist _ _)
      (List.sorted_insertionSort _ _)
  · intro a ha
    exact (List.perm_insertionSort _ _).subset (List.take_subset _ _ ha)

/-- C9: the aggregation has one row per distinct district of the subset;
the average reference line is `none` (omitted, not zero) when there are
at most 1 such rows, and with 2 or more it is the unweighted arithmetic
mean of the selected metric column over all aggregate rows, not a
truncation of them. -/
theorem c9_average_line (m : Metric) (subset : List Record) :
    (filtered_data_agg subset).length = (districtsOf subset).length ∧
    ((filtered_data_agg subset).length ≤ 1 →
      avg_value m (filtered_data_agg subset) = none) ∧
    (2 ≤ (filtered_data_agg subset).length →
      avg_value m (filtered_data_agg subset) =
        some (arithMean ((filtered_data_agg subset).map (m.aggCol)))) := by
  refine ⟨?_, ?_, ?_⟩
  · simp [filtered_data_agg, groupOrder, List.length_insertionSort]
  · intro h
    rw [avg_value, if_neg]
    rintro ⟨-, h2⟩
    omega
  · intro h
    rw [avg_value, if_pos, arithMean, List.length_map]
    constructor
    · rw [List.isEmpty_iff]
      intro he
      rw [he] at h
      simp at h
    · omega

/-- Witness for C9: on the spec's two-district dataset the average line is
present and equals the mean of the two district rates. -/
theorem c9_witness :
    avg_value Metric.rate (filtered_data_agg dsAB) =
      some (arithMean ((filtered_data_agg dsAB).map (Metric.aggCol Metric.rate))) :=
  (c9_average_line Metric.rate dsAB).2.2 (by
    simp +decide [filtered_data_agg, dsAB, groupOrder, districtsOf,
      List.insertionSort, List.orderedInsert])

/-- C10: clicking a district's button toggles its membership in the
selection: the resulting membership is removal when present and insertion
when absent, two consecutive clicks on the same district restore the
selection up to set equality, and a duplicate-free selection stays
duplicate-free. -/
theorem c10_toggle (sel : List String) (d : String) :
    (∀ x, x ∈ update_selected_districts sel d ↔
      (if d ∈ sel then x ∈ sel ∧ x ≠ d else x ∈ sel ∨ x = d)) ∧
    (∀ x, x ∈ update_selected_districts (update_selected_districts sel d) d ↔
      x ∈ sel) ∧
    (sel.Nodup → (update_selected_districts sel d).Nodup) := by
  by_cases h : d ∈ sel
  · have h1 : update_selected_districts sel d = sel.filter fun x => decide (x ≠ d) :=
      if_pos h
    have hmem : ∀ x, x ∈ update_selected_districts sel d ↔ x ∈ sel ∧ x ≠ d := by
      intro x
      rw [h1]
      simp [List.mem_filter]
    have hd : d ∉ update_selected_districts sel d := by
      intro hc
      exact ((hmem d).mp hc).2 rfl
    refine ⟨fun x => by rw [if_pos h]; exact hmem x, ?_, ?_⟩
    · intro x
      rw [update_selected_districts, if_neg hd, List.mem_append, hmem x,
        List.mem_singleton]
      constructor
      · rintro (⟨hx, -⟩ | rfl)
        · exact hx
        · exact h
      · intro hx
        by_cases hxd : x = d
        · exact Or.inr hxd
        · exact Or.inl ⟨hx, hxd⟩
    · intro hnd
      rw [h1]
      exact hnd.filter _
  · have h1 : update_selected_districts sel d = sel ++ [d] := if_neg h
    have hmem : ∀ x, x ∈ update_selected_districts sel d ↔ x ∈ sel ∨ x = d := by
      intro x
      rw [h1]
      simp
    have hd : d ∈ update_selected_districts sel d := (hmem d).mpr (Or.inr rfl)
    refine ⟨fun x => by rw [if_neg h]; exact hmem x, ?_, ?_⟩
    · intro x
      rw [update_selected_districts, if_pos hd]
      simp only [List.mem_filter, hmem x, decide_eq_true_eq]
      constructor
      · rintro ⟨hx | rfl, hxd⟩
        · exact hx
        · exact absurd rfl hxd
      · intro hx
        refine ⟨Or.inl hx, ?_⟩
        rintro rfl
        exact h hx
    · intro hnd
      rw [h1]
      simp [List.nodup_append, hnd, h]

/-- Witness for C10: clicking "Kreis 2" on the duplicate-free selection
`["Kreis 1"]` yields a duplicate-free selection. -/
theorem c10_witness : (update_selected_districts ["Kreis 1"] "Kreis 2").Nodup :=
  (c10_toggle ["Kreis 1"] "Kreis 2").2.2 (by decide)

/-- The `idxmin` fold returns the first label attaining the minimum of
`f`: the label list splits around the result, every label strictly before
it has a strictly larger value, and the result's value is a lower bound
for all labels. -/
theorem pickMin_spec (f : String → ℚ) (d : String) (ds : List String) :
    ∃ l₁ l₂, d :: ds = l₁ ++ pickMin f d ds :: l₂ ∧
      (∀ y ∈ l₁, f (pickMin f d ds) < f y) ∧
      (∀ y ∈ d :: ds, f (pickMin f d ds) ≤ f y) := by
  induction ds generalizing d with
  | nil =>
    refine ⟨[], [], rfl, by simp, ?_⟩
    intro y hy
    rcases List.mem_cons.mp hy with rfl | hy
    · exact le_rfl
    · simp at hy
  | cons x ds ih =>
    have hstep : pickMin f d (x :: ds) =
        pickMin f (if f x < f d then x else d) ds := rfl
    by_cases h : f x < f d
    · rw [if_pos h] at hstep
      rw [hstep]
      obtain ⟨l₁, l₂, heq, hlt, hle⟩ := ih x
      have hmx : f (pickMin f x ds) ≤ f x := hle x (List.mem_cons_self x ds)
      refine ⟨d :: l₁, l₂, ?_, ?_, ?_⟩
      · rw [List.cons_append, ← heq]
      · intro y hy
        rcases List.mem_cons.mp hy with rfl | hy
        · exact lt_of_le_of_lt hmx h
        · exact hlt y hy
      · intro y hy
        rcases List.mem_cons.mp hy with rfl | hy
        · exact le_of_lt (lt_of_le_of_lt hmx h)
        · exact hle y hy
    · rw [if_neg h] at hstep
      rw [hstep]
      obtain ⟨l₁, l₂, heq, hlt, hle⟩ := ih d
      have hdx : f d ≤ f x := not_lt.mp h
      cases l₁ with
      | nil =>
        rw [List.nil_append] at heq
        injection heq with hm hl₂
        refine ⟨[], x :: ds, ?_, by simp, ?_⟩
        · rw [List.nil_append, ← hm]
        · intro y hy
          rcases List.mem_cons.mp hy with rfl | hy
          · exact hle y (List.mem_cons_self _ _)
          · rcases List.mem_cons.mp hy with rfl | hy2
            · exact le_trans (hle d (List.mem_cons_self _ _)) hdx
            · exact hle y (List.mem_cons_of_mem _ hy2)
      | cons a l₁' =>
        rw [List.cons_append] at heq
        injection heq with ha hds
        subst ha
        have hmd : f (pickMin f d ds) < f d :=
          hlt d (List.mem_cons_self _ _)
        refine ⟨d :: x :: l₁', l₂, ?_, ?_, ?_⟩
        · rw [List.cons_append, List.cons_append, ← hds]
        · intro y hy
          rcases List.mem_cons.mp hy with rfl | hy
          · exact hmd
          · rcases List.mem_cons.mp hy with rfl | hy2
            · exact lt_of_lt_of_le hmd hdx
            · exact hlt y (List.mem_cons_of_mem _ hy2)
        · intro y hy
          rcases List.mem_cons.mp hy with rfl | hy
          · exact hle y (List.mem_cons_self _ _)
          · rcases List.mem_cons.mp hy with rfl | hy2
            · exact le_trans (hle d (List.mem_cons_self _ _)) hdx
            · exact hle y (List.mem_cons_of_mem _ hy2)

/-- The `idxmax` fold is the `idxmin` fold of the negated series. -/
theorem pickMax_eq_pickMin_neg (f : String → ℚ) (d : String) (ds : List String) :
    pickMax f d ds = pickMin (fun x => -f x) d ds := by
  unfold pickMax pickMin
  congr 1
  funext best x
  by_cases h : f best < f x
  · rw [if_pos h, if_pos (neg_lt_neg h)]
  · rw [if_neg h, if_neg fun hc => h (neg_lt_neg_iff.mp hc)]

/-- The `idxmax` fold returns the first label attaining the maximum. -/
theorem pickMax_spec (f : String → ℚ) (d : String) (ds : List String) :
    ∃ l₁ l₂, d :: ds = l₁ ++ pickMax f d ds :: l₂ ∧
      (∀ y ∈ l₁, f y < f (pickMax f d ds)) ∧
      (∀ y ∈ d :: ds, f y ≤ f (pickMax f d ds)) := by
  rw [pickMax_eq_pickMin_neg]
  obtain ⟨l₁, l₂, heq, hlt, hle⟩ := pickMin_spec (fun x => -f x) d ds
  exact ⟨l₁, l₂, heq,
    fun y hy => neg_lt_neg_iff.mp (hlt y hy),
    fun y hy => neg_le_neg_iff.mp (hle y hy)⟩

/-- A non-empty subset has a non-empty group iteration order. -/
theorem groupOrder_ne_nil {subset : List Record} (h : subset ≠ []) :
    groupOrder subset ≠ [] := by
  intro hc
  apply h
  have hperm := List.perm_insertionSort (fun a b : String => a ≤ b)
    (districtsOf subset)
  rw [groupOrder] at hc
  rw [hc] at hperm
  have hdedup : districtsOf subset = [] := hperm.symm.eq_nil
  rw [districtsOf, List.dedup_eq_nil] at hdedup
  simpa using hdedup

/-- C6: for a non-empty subset the group iteration order is the sorted
(deterministic) district order; the safest district occurs in it with
every earlier district having a strictly larger mean of the selected
metric (first-wins tie-break) and a minimal mean overall; dually the most
vulnerable district is the first one attaining the maximal mean. -/
theorem c6_extremes (m : Metric) (subset : List Record) (h : subset ≠ []) :
    List.Sorted (fun a b : String => a ≤ b) (groupOrder subset) ∧
    (∃ l₁ l₂, groupOrder subset = l₁ ++ safest_stadtkreis m subset :: l₂ ∧
      ∀ d ∈ l₁, groupMean m subset (safest_stadtkreis m subset) <
        groupMean m subset d) ∧
    (∀ d ∈ groupOrder subset,
      groupMean m subset (safest_stadtkreis m subset) ≤ groupMean m subset d) ∧
    (∃ l₁ l₂, groupOrder subset = l₁ ++ dangerous_stadtkreis m subset :: l₂ ∧
      ∀ d ∈ l₁, groupMean m subset d <
        groupMean m subset (dangerous_stadtkreis m subset)) ∧
    (∀ d ∈ groupOrder subset,
      groupMean m subset d ≤
        groupMean m subset (dangerous_stadtkreis m subset)) := by
  have hne : groupOrder subset ≠ [] := groupOrder_ne_nil h
  have hsorted : List.Sorted (fun a b : String => a ≤ b) (groupOrder subset) :=
    List.sorted_insertionSort _ _
  obtain ⟨d, ds, hds⟩ := List.exists_cons_of_ne_nil hne
  have hie : ¬subset.isEmpty := by simpa [List.isEmpty_iff] using h
  have hsafe : safest_stadtkreis m subset = pickMin (groupMean m subset) d ds := by
    rw [safest_stadtkreis, if_neg hie, hds, idxmin, Option.getD_some]
  have hdang : dangerous_stadtkreis m subset = pickMax (groupMean m subset) d ds := by
    rw [dangerous_stadtkreis, if_neg hie, hds, idxmax, Option.getD_some]
  refine ⟨hsorted, ?_, ?_, ?_, ?_⟩
  · obtain ⟨l₁, l₂, heq, hlt, -⟩ := pickMin_spec (groupMean m subset) d ds
    refine ⟨l₁, l₂, ?_, ?_⟩
    · rw [hds, hsafe]
      exact heq
    · rw [hsafe]
      exact hlt
  · intro x hx
    obtain ⟨-, -, -, -, hle⟩ := pickMin_spec (groupMean m subset) d ds
    rw [hsafe]
    exact hle x (by rwa [hds] at hx)
  · obtain ⟨l₁, l₂, heq, hlt, -⟩ := pickMax_spec (groupMean m subset) d ds
    refine ⟨l₁, l₂, ?_, ?_⟩
    · rw [hds, hdang]
      exact heq
    · rw [hdang]
      exact hlt
  · intro x hx
    obtain ⟨-, -, -, -, hle⟩ := pickMax_spec (groupMean m subset) d ds
    rw [hdang]
    exact hle x (by rwa [hds] at hx)

/-- Witness for C6 on the spec's scenario: districts "A" (rate 10) and
"B" (rate 5) in 2020, metric rate — the safest district is "B", the most
vulnerable "A", and the extremal/tie-break properties hold there. -/
theorem c6_witness :
    dsAB ≠ [] ∧
    safest_stadtkreis Metric.rate dsAB = "B" ∧
    dangerous_stadtkreis Metric.rate dsAB = "A" ∧
    (List.Sorted (fun a b : String => a ≤ b) (groupOrder dsAB) ∧
      (∃ l₁ l₂, groupOrder dsAB = l₁ ++ safest_stadtkreis Metric.rate dsAB :: l₂ ∧
        ∀ d ∈ l₁, groupMean Metric.rate dsAB (safest_stadtkreis Metric.rate dsAB) <
          groupMean Metric.rate dsAB d) ∧
      (∀ d ∈ groupOrder dsAB,
        groupMean Metric.rate dsAB (safest_stadtkreis Metric.rate dsAB) ≤
          groupMean Metric.rate dsAB d) ∧
      (∃ l₁ l₂, groupOrder dsAB = l₁ ++ dangerous_stadtkreis Metric.rate dsAB :: l₂ ∧
        ∀ d ∈ l₁, groupMean Metric.rate dsAB d <
          groupMean Metric.rate dsAB (dangerous_stadtkreis Metric.rate dsAB)) ∧
      (∀ d ∈ groupOrder dsAB,
        groupMean Metric.rate dsAB d ≤
          groupMean Metric.rate dsAB (dangerous_stadtkreis Metric.rate dsAB))) :=
  ⟨by simp [dsAB],
    by
      simp +decide [safest_stadtkreis, dsAB, idxmin, groupOrder, districtsOf,
        List.insertionSort, List.orderedInsert, pickMin, groupMean, groupRows,
        Metric.recCol],
    by
      simp +decide [dangerous_stadtkreis, dsAB, idxmax, groupOrder, districtsOf,
        List.insertionSort, List.orderedInsert, pickMax, groupMean, groupRows,
        Metric.recCol],
    c6_extremes Metric.rate dsAB (by simp [dsAB])⟩

/-- C8 (counterexample): on a dataset whose only record has zero
incidents — all records non-negative, so a "subset of the full dataset"
in the claim's sense — taking the subset equal to the full dataset gives
a zero-by-zero division, so the percentage is NaN (`none`), neither 100
nor inside `[0, 100]`. -/
theorem c8_counterexample :
    (∀ r ∈ dsZero, 0 ≤ r.incidents) ∧
    percentage_of_total_burglaries dsZero dsZero = none ∧
    percentage_of_total_burglaries dsZero dsZero ≠ some 100 := by
  decide

/-- C8 (amended): provided the all-years incident total is positive, the
percentage of any sublist subset of the full dataset (all records
non-negative) is defined and lies in `[0, 100]`, and the full dataset's
own percentage is exactly 100. -/
theorem c8_percentage_bounds (full subset : List Record)
    (hsub : subset.Sublist full) (hnn : ∀ r ∈ full, 0 ≤ r.incidents)
    (hpos : 0 < total_burglaries_all_years full) :
    (∃ p, percentage_of_total_burglaries subset full = some p ∧
      0 ≤ p ∧ p ≤ 100) ∧
    percentage_of_total_burglaries full full = some 100 := by
  have hTQ : ((total_burglaries_all_years full : ℚ)) ≠ 0 := by
    exact_mod_cast hpos.ne'
  have hTQpos : (0 : ℚ) < (total_burglaries_all_years full : ℚ) := by
    exact_mod_cast hpos
  have hts : total_burglaries subset ≤ total_burglaries_all_years full := by
    rw [total_burglaries, total_burglaries_all_years]
    refine List.Sublist.sum_le_sum (hsub.map _) ?_
    intro a ha
    obtain ⟨r, hr, rfl⟩ := List.mem_map.mp ha
    exact hnn r hr
  have htnn : (0 : Int) ≤ total_burglaries subset := by
    rw [total_burglaries]
    refine List.sum_nonneg ?_
    intro a ha
    obtain ⟨r, hr, rfl⟩ := List.mem_map.mp ha
    exact hnn r (hsub.subset hr)
  constructor
  · refine ⟨(total_burglaries subset : ℚ) /
      (total_burglaries_all_years full : ℚ) * 100, ?_, ?_, ?_⟩
    · rw [percentage_of_total_burglaries, npDiv, if_neg hTQ]
      rfl
    · have h0 : (0 : ℚ) ≤ (total_burglaries subset : ℚ) := by exact_mod_cast htnn
      have := div_nonneg h0 hTQpos.le
      nlinarith
    · have h1 : (total_burglaries subset : ℚ) /
          (total_burglaries_all_years full : ℚ) ≤ 1 := by
        rw [div_le_one hTQpos]
        exact_mod_cast hts
      nlinarith
  · rw [percentage_of_total_burglaries, npDiv, if_neg hTQ]
    have heqT : ((total_burglaries full : ℚ)) = (total_burglaries_all_years full : ℚ) := rfl
    simp only [Option.map_some']
    rw [heqT, div_self hTQ]
    norm_num

/-- Witness for C8 at the spec's two-district dataset (all-years total
15 > 0), taking the subset equal to the full dataset. -/
theorem c8_witness :
    0 < total_burglaries_all_years dsAB ∧
    ((∃ p, percentage_of_total_burglaries dsAB dsAB = some p ∧
      0 ≤ p ∧ p ≤ 100) ∧
    percentage_of_total_burglaries dsAB dsAB = some 100) :=
  ⟨by decide,
    c8_percentage_bounds dsAB dsAB (List.Sublist.refl dsAB) (by decide) (by decide)⟩

end Ivi
